import Mathlib

/-!
Verification of the module/object reflection-and-persistence pipeline of the
hou-aibridge repository: a shallow embedding, in Lean 4, of the core of
`zabob/common/analyze_modules.py` (the reflective walker and guarded importer),
`zabob/common/analysis_db.py` (the persistence writer and resume/skip index),
`zabob/common/analysis_types.py` (the record dataclasses), and
`zabob/common/infinite_mock.py` (the permissive stand-in object), together with
theorems settling the behavioural claims about this pipeline.

Python's cyclic runtime object graph is modelled as a total map from object
identities (`Nat`) to object descriptions (`PyObj`); the unbounded recursions
of the walker are modelled with an explicit fuel parameter (running out of
fuel truncates the emitted stream, exactly as stopping the generator would).
-/

set_option maxHeartbeats 1000000

namespace Zabob

/-- Python's `needle in hay` substring test on strings (case-sensitive),
as lists of characters. -/
def subIn (needle : List Char) : List Char → Bool
  | [] => needle.isPrefixOf []
  | c :: t => needle.isPrefixOf (c :: t) || subIn needle t

/-- Python's `needle in hay` substring test on strings (case-sensitive). -/
def strIn (needle hay : String) : Bool := subIn needle.toList hay.toList

/-- Python's `s.startswith(pre)`. -/
def strStarts (pre s : String) : Bool := pre.toList.isPrefixOf s.toList

/-- `EntryType` from `analysis_types.py`: the closed classification taxonomy
(a Python `StrEnum`). -/
inductive EntryType where
  | MODULE
  | CLASS
  | FUNCTION
  | METHOD
  | ENUM
  | CONSTANT
  | OBJECT
  | ATTRIBUTE
  | ENUM_TYPE
  | OVERLOAD
deriving Repr, DecidableEq

/-- The `StrEnum` *value* of each `EntryType` member, exactly as assigned in
`analysis_types.py` (note `ENUM_TYPE = 'ENUMTYPE'`).  A Python `StrEnum`
member compares equal to a plain string exactly when this value equals it. -/
def EntryType.val : EntryType → String
  | .MODULE => "MODULE"
  | .CLASS => "CLASS"
  | .FUNCTION => "FUNCTION"
  | .METHOD => "METHOD"
  | .ENUM => "ENUM"
  | .CONSTANT => "CONSTANT"
  | .OBJECT => "OBJECT"
  | .ATTRIBUTE => "ATTRIBUTE"
  | .ENUM_TYPE => "ENUMTYPE"
  | .OVERLOAD => "OVERLOAD"

/-- The member *name* of each `EntryType` member (`EntryType.X.name`), which is
what `common_utils.get_name` returns for an `Enum` instance (its `Enum()` match
arm returns `str(d.name)`). -/
def EntryType.ename : EntryType → String
  | .MODULE => "MODULE"
  | .CLASS => "CLASS"
  | .FUNCTION => "FUNCTION"
  | .METHOD => "METHOD"
  | .ENUM => "ENUM"
  | .CONSTANT => "CONSTANT"
  | .OBJECT => "OBJECT"
  | .ATTRIBUTE => "ATTRIBUTE"
  | .ENUM_TYPE => "ENUM_TYPE"
  | .OVERLOAD => "OVERLOAD"

/-- A Python `type` object, identified by its `__name__`.  `_dtype` in
`analyze_modules.py` returns such a type object (either `type(v)` or the
builtin `tuple`), and `HoudiniStaticData.datatype` stores it. -/
structure PyType where
  tname : String
deriving Repr, DecidableEq

/-- Python `==` between a `type` object and a `str`: `str.__eq__` and
`type.__eq__` both return `NotImplemented` across these types, so comparison
falls back to identity and is always `False` — a `type` object is never the
same object as a `str`.  This models the expression `datatype == 'EnumValue'`
in `_mk_datum`, where `datatype` holds a `type` object. -/
def pyTypeEqStr (_t : PyType) (_s : String) : Bool := false

/-- `HoudiniStaticData` from `analysis_types.py` (the `ReflectedEntity` of the
spec): one reflected member of the object graph. -/
structure HoudiniStaticData where
  name : String
  type : EntryType
  datatype : PyType
  docstring : Option String
  parent_name : Option String
  parent_type : Option EntryType
deriving Repr, DecidableEq

/-- The value of `ModuleData.status`: `'OK' | 'IGNORE' | <Exception> | None`
(the `None` case is the surrounding `Option`).  An exception carries its type
name (`type(e).__name__`) and its message (`str(e)`). -/
inductive MStatus where
  | ok
  | ignore
  | exc (tyName msg : String)
deriving Repr, DecidableEq

/-- `ModuleData` from `analysis_types.py` (the `ModuleRecord` of the spec).
Paths are modelled as strings. -/
structure ModuleData where
  name : String
  directory : Option String
  file : Option String
  count : Option Nat
  status : Option MStatus
  reason : Option String
deriving Repr, DecidableEq

/-- `Path.parent` of a path string: drop the final `/`-separated component. -/
def parentPath (p : String) : String :=
  String.intercalate "/" (p.splitOn "/").dropLast

/-- Construct a `ModuleData` the way the dataclass constructor plus
`__post_init__` does: `directory` is derived from `file`'s parent, and when
`status` is an exception and no `reason` was given, `reason` becomes the
exception's message (`str(self.status)`). -/
def mkModuleData (name : String) (file : Option String) (count : Option Nat)
    (status : Option MStatus) (reason : Option String) : ModuleData :=
  let directory := file.map parentPath
  let reason' := match status, reason with
    | some (.exc _ msg), none => some msg
    | _, r => r
  ⟨name, directory, file, count, status, reason'⟩

/-- One Python runtime object, as the walker observes it through the host's
introspection surface.  `name` is `getattr(obj, '__name__', None) or str(obj)`
(the display name the source would compute); `typeName` is
`type(obj).__name__`; `doc` is `inspect.getdoc(obj)` and `typeDoc` is
`inspect.getdoc(type(obj))`; `file` is the resolved `__file__` when present;
`members` is the result of `get_members_safe` (already degraded to the empty
list when reflection raised), as pairs of attribute name and object identity.
The `is…` flags are the results of the `inspect` predicates and `isinstance`
tests the source applies; `isEnumSubclass` is
`issubclass(c, (Enum, hou.EnumValue))` and `isHouEnumType` is
`ishouenumtype(c)`, both evaluated by the host. -/
structure PyObj where
  name : String
  moduleName : String
  typeName : String
  doc : Option String
  typeDoc : Option String
  file : Option String
  members : List (String × Nat)
  isModule : Bool
  isClass : Bool
  isFunction : Bool
  isMeth : Bool
  isMethodDescriptor : Bool
  isBuiltin : Bool
  isDataDescriptor : Bool
  isProperty : Bool
  isEnumInstance : Bool
  isInfiniteMock : Bool
  isEnumSubclass : Bool
  isHouEnumType : Bool
deriving Repr, DecidableEq

/-- The runtime object graph: a total map from object identities to objects. -/
abbrev World := Nat → PyObj

/-- `_docstring` from `analyze_modules.py`: the object's doc string, `None` if
absent, if string-equal to its type's doc string, or (via the final
`getdoc(v) or None`) if empty. -/
def _docstring (v : PyObj) : Option String :=
  match v.doc with
  | none => none
  | some own =>
      if v.typeDoc == some own then none
      else if own == "" then none
      else some own

/-- `_dtype` from `analyze_modules.py`: the type of a value, with any type
whose name contains `tuple` or `Tuple` mapped to the builtin `tuple` type. -/
def _dtype (v : PyObj) : PyType :=
  if strIn "tuple" v.typeName || strIn "Tuple" v.typeName then ⟨"tuple"⟩
  else ⟨v.typeName⟩

/-- `_mk_datum` from `analyze_modules.py`.  Notes kept faithful to the source:
the `name or getattr(item, '__name__', None) or str(item)` chain treats an
empty string as falsy; the guard `type == 'function' and parent.type == 'class'`
compares `StrEnum` members against the lowercase strings `'function'` and
`'class'`, while every `EntryType` value is uppercase, so it never fires; the
guard `datatype == 'EnumValue'` compares a `type` object against a `str`
(see `pyTypeEqStr`), so it never fires either. -/
def _mk_datum (item : PyObj) (ty : EntryType) (parent : Option HoudiniStaticData)
    (nameArg : Option String) : HoudiniStaticData :=
  let name := match nameArg with
    | some n => if n == "" then item.name else n
    | none => item.name
  let datatype := _dtype item
  let ty1 := if ty.val == "function"
                && (match parent with
                    | some p => p.type.val == "class"
                    | none => false)
             then EntryType.METHOD else ty
  let tydt : EntryType × PyType :=
    if name == "EnumValue" then (EntryType.CLASS, datatype)
    else if pyTypeEqStr datatype "EnumValue" then
      (EntryType.ENUM, match parent with
        | some p => p.datatype
        | none => datatype)
    else (ty1, datatype)
  ⟨name, tydt.1, tydt.2, _docstring item,
    parent.map (·.name), parent.map (·.type)⟩

/-- The mutable state threaded through the reflective walker: the `seen`
identity set, the FIFO `queue` of `(parent entity, nested module)` pairs, and
the `queued` identity set. -/
structure WalkState where
  seen : List Nat
  queue : List (HoudiniStaticData × Nat)
  queued : List Nat
deriving Repr, DecidableEq

/-- The overload-signature harvest (`_yield_function_signatures`), abstracted:
given a base module name and a qualified function name it returns the payloads
of the `AnalysisFunctionSignature` records the source would yield (their
content depends on the external `inspect`/overload-collector state). -/
abbrev SigFn := String → String → List String

/-- An `AnalysisFunctionSignature` record as it appears in the walker's
stream: an opaque payload plus the parent entity fields the source copies from
the function's datum. -/
structure SigRec where
  payload : String
  parent_name : String
  parent_type : EntryType
deriving Repr, DecidableEq

/-- One element of the stream produced by the walker (`HoudiniStaticData |
ModuleData | AnalysisFunctionSignature`).  A `dat` item additionally records
the identity of the walked object when the datum is the per-visit record of a
module or class (the `yield module_data` / `yield class_data` emissions);
member-level datums carry `none`.  This instrumentation only tags items and
does not alter what is emitted. -/
inductive Item where
  | mod (md : ModuleData)
  | dat (oid : Option Nat) (d : HoudiniStaticData)
  | sig (s : SigRec)
deriving Repr, DecidableEq

mutual

/-- `_load_class` from `analyze_modules.py`, with explicit fuel bounding the
nested-class recursion depth.  Mirrors the source line by line: the seen
check, marking seen, the `name or cls.__name__` default, the underscore
filter, the `Enum`/hou-enum-type classification (the `cls is hou.EnumValue`
branch re-assigns the same value and is a no-op), the emission of
`class_data`, then the member loop. -/
def loadClass (w : World) (sigFn : SigFn) (fuel : Nat) (cid : Nat)
    (parent : HoudiniStaticData) (st : WalkState) (nameArg : Option String) :
    List Item × WalkState :=
  match fuel with
  | 0 => ([], st)
  | fuel' + 1 =>
    let c := w cid
    if st.seen.contains cid then ([], st) else
    let st1 : WalkState := ⟨cid :: st.seen, st.queue, st.queued⟩
    let name := match nameArg with
      | some n => if n == "" then c.name else n
      | none => c.name
    if strStarts "_" name then ([], st1) else
    let ty := if c.isEnumSubclass then EntryType.ENUM
              else if c.isHouEnumType then EntryType.ENUM_TYPE
              else EntryType.CLASS
    let class_data := _mk_datum c ty (some parent) none
    let ms := classMembers w sigFn fuel' c name parent class_data c.members st1
    (Item.dat (some cid) class_data :: ms.1, ms.2)

/-- The member loop of `_load_class`: for each public member, classify it by
the source's ordered predicate chain, then queue nested modules, recurse into
nested classes with the dotted name, emit property members as attributes, and
emit everything else as a datum (followed by harvested signatures when it was
classified `METHOD` or `FUNCTION`).  The inner `if name.startswith('_')`
re-check of the *class* name is reproduced even though the class walk already
returned in that case. -/
def classMembers (w : World) (sigFn : SigFn) (fuel : Nat) (c : PyObj)
    (name : String) (parent : HoudiniStaticData)
    (class_data : HoudiniStaticData) (ms : List (String × Nat))
    (st : WalkState) : List Item × WalkState :=
  match ms with
  | [] => ([], st)
  | (mn, mid) :: rest =>
    let step : List Item × WalkState :=
      if strStarts "_" mn then ([], st) else
      let m := w mid
      let ty := if m.isMeth then EntryType.METHOD
                else if m.isFunction || m.isMethodDescriptor || m.isBuiltin then
                  (if parent.type == EntryType.CLASS then EntryType.METHOD
                   else EntryType.FUNCTION)
                else if m.isDataDescriptor then EntryType.ATTRIBUTE
                else if m.isClass then EntryType.CLASS
                else EntryType.OBJECT
      if strStarts "_" name then ([], st) else
      if m.isModule && !m.isInfiniteMock then
        if !(st.seen.contains mid) && !(st.queued.contains mid) then
          ([], ⟨st.seen, st.queue ++ [(class_data, mid)], mid :: st.queued⟩)
        else ([], st)
      else if m.isClass then
        loadClass w sigFn fuel mid class_data st (some (name ++ "." ++ mn))
      else if m.isProperty then
        ([Item.dat none (_mk_datum m EntryType.ATTRIBUTE (some class_data) (some mn))], st)
      else
        let member_data := _mk_datum m ty (some class_data) (some mn)
        let sigs : List Item :=
          if ty == EntryType.METHOD || ty == EntryType.FUNCTION then
            (sigFn c.moduleName (c.moduleName ++ "." ++ c.name ++ "." ++ mn)).map
              (fun p => Item.sig ⟨p, member_data.name, member_data.type⟩)
          else []
        (Item.dat none member_data :: sigs, st)
    let restOut := classMembers w sigFn fuel c name parent class_data rest step.2
    (step.1 ++ restOut.1, restOut.2)

end

/-- The member loop of `_load_module`: queue nested modules (skipping
`InfiniteMock` shims), walk classes inline, emit functions (with signatures),
enum instances, bound/builtin callables (recorded as `FUNCTION` since the
enclosing scope is a module), and a catch-all `OBJECT` datum. -/
def moduleMembers (w : World) (sigFn : SigFn) (fuel : Nat) (m : PyObj)
    (module_data : HoudiniStaticData) (ms : List (String × Nat))
    (st : WalkState) : List Item × WalkState :=
  match ms with
  | [] => ([], st)
  | (mn, mid) :: rest =>
    let step : List Item × WalkState :=
      if strStarts "_" mn then ([], st) else
      let mem := w mid
      if mem.isModule && !mem.isInfiniteMock then
        if !(st.seen.contains mid) && !(st.queued.contains mid) then
          ([], ⟨st.seen, st.queue ++ [(module_data, mid)], mid :: st.queued⟩)
        else ([], st)
      else if mem.isClass then
        loadClass w sigFn fuel mid module_data st none
      else if mem.isFunction then
        let fd := _mk_datum mem EntryType.FUNCTION (some module_data) (some mn)
        (Item.dat none fd ::
          (sigFn m.name (m.name ++ "." ++ mn)).map
            (fun p => Item.sig ⟨p, fd.name, fd.type⟩), st)
      else if mem.isEnumInstance then
        ([Item.dat none (_mk_datum mem EntryType.ENUM (some module_data) (some mn))], st)
      else if mem.isMeth || mem.isMethodDescriptor || mem.isBuiltin then
        let fd := _mk_datum mem EntryType.FUNCTION (some module_data) (some mn)
        (Item.dat none fd ::
          (sigFn m.name (m.name ++ "." ++ mn)).map
            (fun p => Item.sig ⟨p, fd.name, fd.type⟩), st)
      else
        ([Item.dat none (_mk_datum mem EntryType.OBJECT (some module_data) (some mn))], st)
    let restOut := moduleMembers w sigFn fuel m module_data rest step.2
    (step.1 ++ restOut.1, restOut.2)

mutual

/-- `_load_module` from `analyze_modules.py`: the seen check, the `done` name
check, the `ignore` check (emitting an `IGNORE` record and stopping), then the
"module opened" `ModuleData` marker, the module's own datum, the member loop,
and — only on the top-level call — the drain of the pending-module queue.
`file.resolve()` is modelled as the identity on the stored path. -/
def loadModule (w : World) (sigFn : SigFn) (fuel : Nat) (mid : Nat)
    (parent : Option HoudiniStaticData) (st : WalkState) (done : List String)
    (ignore : List (String × String)) (top : Bool) : List Item × WalkState :=
  match fuel with
  | 0 => ([], st)
  | fuel' + 1 =>
    let m := w mid
    if st.seen.contains mid then ([], st) else
    let st1 : WalkState := ⟨mid :: st.seen, st.queue, st.queued⟩
    if done.contains m.name then ([], st1) else
    match ignore.lookup m.name with
    | some r =>
      ([Item.mod (mkModuleData m.name m.file none (some MStatus.ignore) (some r))], st1)
    | none =>
      let md := mkModuleData m.name m.file none none none
      let module_data := _mk_datum m EntryType.MODULE parent (some m.name)
      let ms := moduleMembers w sigFn fuel' m module_data m.members st1
      let body := Item.mod md :: Item.dat (some mid) module_data :: ms.1
      if top then
        let dr := drainQueue w sigFn fuel' ms.2 done ignore
        (body ++ dr.1, dr.2)
      else (body, ms.2)

/-- The `while len(queue) > 0` drain loop at the end of the top-level
`_load_module` call: repeatedly pop the FIFO queue and walk the popped module
(as a non-top call, so discoveries append to the same queue). -/
def drainQueue (w : World) (sigFn : SigFn) (fuel : Nat) (st : WalkState)
    (done : List String) (ignore : List (String × String)) :
    List Item × WalkState :=
  match fuel with
  | 0 => ([], st)
  | fuel' + 1 =>
    match st.queue with
    | [] => ([], st)
    | (pd, mid) :: rest =>
      let st1 : WalkState := ⟨st.seen, rest, st.queued⟩
      let r1 := loadModule w sigFn fuel' mid (some pd) st1 done ignore false
      let r2 := drainQueue w sigFn fuel' r1.2 done ignore
      (r1.1 ++ r2.1, r2.2)

end

/-- The loop body of `analyze_modules`: `ModuleData` entries in the input are
passed through; module objects are walked by a top-level `_load_module` call
with a *fresh* `seen` set (`seen=set()` in the source) while the `queue` and
`queued` sets persist across roots. -/
def analyzeGo (w : World) (sigFn : SigFn) (fuel : Nat) (done : List String)
    (ignore : List (String × String)) :
    List (Sum Nat ModuleData) → List (HoudiniStaticData × Nat) → List Nat →
    List Item
  | [], _, _ => []
  | .inr md :: rest, q, qd => Item.mod md :: analyzeGo w sigFn fuel done ignore rest q qd
  | .inl mid :: rest, q, qd =>
    let r := loadModule w sigFn fuel mid none ⟨[], q, qd⟩ done ignore true
    r.1 ++ analyzeGo w sigFn fuel done ignore rest r.2.queue r.2.queued

/-- `analyze_modules` from `analyze_modules.py`: walk every included root
(module identities or pass-through `ModuleData` records) and emit one
continuous stream. -/
def analyze_modules (w : World) (sigFn : SigFn) (fuel : Nat)
    (include_ : List (Sum Nat ModuleData)) (ignore : List (String × String))
    (done : List String) : List Item :=
  analyzeGo w sigFn fuel done ignore include_ [] []

/-- The outcome of `importlib.import_module(name)` inside the safety shims:
either an exception (type name and message; `sys.exit` has already been
replaced by `prevent_exit` with a handler raising
`RuntimeError("Module attempted to exit with code …")`, so attempted exits
arrive here as ordinary exceptions) or the resulting object's identity. -/
inductive ImportOutcome where
  | raises (tyName msg : String)
  | rets (oid : Nat)
deriving Repr, DecidableEq

/-- The host import machinery, abstracted as a map from dotted names to
outcomes. -/
abbrev Importer := String → ImportOutcome

/-- `reject_name` from `analyze_modules.py`: drop names already `done` and
`zabob.`-prefixed names; turn ignored names into an `IGNORE` `ModuleData`;
pass every other name through. -/
def reject_name (name : String) (done : List String)
    (ignore : List (String × String)) (file : Option String) :
    List (Sum String ModuleData) :=
  if done.contains name then []
  else if strStarts "zabob." name then []
  else match ignore.lookup name with
    | some r => [Sum.inr (mkModuleData name file none (some MStatus.ignore) (some r))]
    | none => [Sum.inl name]

/-- `import_or_warn` from `analyze_modules.py`: pass `ModuleData` through;
otherwise run the import under the shims.  Any exception — including the
`TypeError` the function itself raises when the imported object is not a
module — is caught, a warning is printed, and a single
`ModuleData(name=module_name, file=file, status=e)` is yielded; nothing
propagates.  Note the `file` parameter defaults to `None` at the call site in
`modules_in_path`. -/
def import_or_warn (w : World) (imp : Importer) (nm : Sum String ModuleData)
    (file : Option String) : List (Sum Nat ModuleData) :=
  match nm with
  | .inr md => [.inr md]
  | .inl n =>
    match imp n with
    | .rets oid =>
        if (w oid).isModule then [.inl oid]
        else [.inr (mkModuleData n file none
                      (some (.exc "TypeError" (n ++ " is not a module, skipping"))) none)]
    | .raises ty msg =>
        [.inr (mkModuleData n file none (some (.exc ty msg)) none)]

/-- `reject` from `analyze_modules.py`: pass `ModuleData` through; skip
modules already seen, non-modules, and `InfiniteMock` shims; compute the file
as `getattr(m, '__file__', file)`; then, for each element `reject_name` yields
for the module's name, mark the module seen and yield the module itself (note
the source yields `m`, the module object, even when `reject_name` yielded an
`IGNORE` record). -/
def reject (w : World) (m : Sum Nat ModuleData) (seen : List Nat)
    (done : List String) (ignore : List (String × String))
    (file : Option String) : List (Sum Nat ModuleData) × List Nat :=
  match m with
  | .inr md => ([.inr md], seen)
  | .inl oid =>
    let o := w oid
    if seen.contains oid then ([], seen)
    else if !o.isModule || o.isInfiniteMock then ([], seen)
    else
      let file1 := match o.file with
        | some f => some f
        | none => file
      match reject_name o.name done ignore file1 with
      | [] => ([], seen)
      | _ :: _ => ([.inl oid], oid :: seen)

/-- The innermost stage of the `modules_in_path` comprehension: feed each
result of importing through `reject`, threading the shared `seen` set. -/
def procMods (w : World) (done : List String) (ignore : List (String × String))
    (file : Option String) : List (Sum Nat ModuleData) → List Nat →
    List (Sum Nat ModuleData) × List Nat
  | [], seen => ([], seen)
  | m :: rest, seen =>
    let step := reject w m seen done ignore file
    let restOut := procMods w done ignore file rest step.2
    (step.1 ++ restOut.1, restOut.2)

/-- The middle stage of the `modules_in_path` comprehension: import each
surviving name.  `import_or_warn(name)` is called without a `file` argument in
the source, so failure records are built with `file=None`. -/
def procNames (w : World) (imp : Importer) (done : List String)
    (ignore : List (String × String)) (file : Option String) :
    List (Sum String ModuleData) → List Nat →
    List (Sum Nat ModuleData) × List Nat
  | [], seen => ([], seen)
  | nm :: rest, seen =>
    let mods := import_or_warn w imp nm none
    let step := procMods w done ignore file mods seen
    let restOut := procNames w imp done ignore file rest step.2
    (step.1 ++ restOut.1, restOut.2)

/-- The candidate phase of `modules_in_path`: for each `(candidate, file)`
pair produced by `candidates_in_dir`, run `reject_name`, import, and
`reject`. -/
def process_candidates (w : World) (imp : Importer) (done : List String)
    (ignore : List (String × String)) :
    List (String × Option String) → List Nat →
    List (Sum Nat ModuleData) × List Nat
  | [], seen => ([], seen)
  | (cand, file) :: rest, seen =>
    let names := reject_name cand done ignore file
    let step := procNames w imp done ignore file names seen
    let restOut := process_candidates w imp done ignore rest step.2
    (step.1 ++ restOut.1, restOut.2)

/-- The final pass of `modules_in_path` over `sys.modules`: feed every live
module through `reject` with its own `__file__`. -/
def sysPass (w : World) (done : List String) (ignore : List (String × String)) :
    List Nat → List Nat → List (Sum Nat ModuleData) × List Nat
  | [], seen => ([], seen)
  | oid :: rest, seen =>
    let step := reject w (.inl oid) seen done ignore (w oid).file
    let restOut := sysPass w done ignore rest step.2
    (step.1 ++ restOut.1, restOut.2)

/-- `modules_in_path` from `analyze_modules.py`, from the candidate list
onward (`candidates_in_dir`'s filesystem walk supplies `cands`; the contents
of `sys.modules` at the time of the final pass supply `sysMods`). -/
def modules_in_path (w : World) (imp : Importer) (done : List String)
    (ignore : List (String × String)) (cands : List (String × Option String))
    (sysMods : List Nat) : List (Sum Nat ModuleData) :=
  let r := process_candidates w imp done ignore cands []
  let r2 := sysPass w done ignore sysMods r.2
  r.1 ++ r2.1

/-- One row of the `houdini_module_data` table. -/
structure DataRow where
  name : String
  type : String
  datatype : String
  docstring : Option String
  parent_name : Option String
  parent_type : Option String
deriving Repr, DecidableEq

/-- One row of the `houdini_modules` table. -/
structure ModRow where
  name : String
  directory : Option String
  file : Option String
  count : Option Nat
  status : Option String
  reason : Option String
deriving Repr, DecidableEq

/-- The two tables of the analysis database that the writer touches, as maps
from declared primary key to row (`INSERT OR REPLACE` semantics: at most one
row per key). -/
structure DB where
  modules : String → Option ModRow
  module_data : String × String → Option DataRow

/-- The empty database, as `init_db` leaves it. -/
def DB.empty : DB := ⟨fun _ => none, fun _ => none⟩

/-- The closure state of `analysis_db_writer.writer`: the database, the
running `item_count`, and the open `cur_module` slot.  `updates` logs every
finalizing `UPDATE houdini_modules SET count=?, status='OK' …` the writer
issues, as `(module name, count written)` — instrumentation recording which
statements were executed, not a change to them. -/
structure WriterState where
  db : DB
  item_count : Nat
  cur_module : Option ModuleData
  updates : List (String × Nat)

/-- The status value bound to the `status` column parameter: the writer
stringifies an exception to `type(status).__name__` (every exception type has
`__name__`); `'OK'`/`'IGNORE'` strings and `None` pass through. -/
def statusToDb : Option MStatus → Option String
  | none => none
  | some .ok => some "OK"
  | some .ignore => some "IGNORE"
  | some (.exc ty _) => some ty

/-- `get_name(datum.parent_type)` as bound by the writer when
`parent_name is not None`: an `EntryType` member yields its member name; the
source passes `None` through `get_name`, whose `None` arm returns the string
`"None"`. -/
def parentTypeCol : Option EntryType → String
  | none => "None"
  | some e => e.ename

/-- The `houdini_module_data` row the writer inserts for a datum: the
`parent_name is not None` branch binds the parent columns (passing
`parent_type` through `get_name`); the other branch writes SQL `NULL`s. -/
def dataRowOf (d : HoudiniStaticData) : DataRow :=
  if d.parent_name.isSome then
    ⟨d.name, d.type.ename, d.datatype.tname, d.docstring,
      d.parent_name, some (parentTypeCol d.parent_type)⟩
  else
    ⟨d.name, d.type.ename, d.datatype.tname, d.docstring, none, none⟩

/-- One step of `analysis_db_writer.writer`.  On a `ModuleData`: first, if a
module is open, `UPDATE` it with the running count, `status='OK'`,
`reason=NULL`; then `INSERT OR REPLACE` the new record and reset the counter;
if the new record's status is non-null the function returns at that point —
leaving `cur_module` unchanged — otherwise the new record becomes
`cur_module`.  On a `HoudiniStaticData`: bump the counter and upsert the row
(the two branches on `parent_name` issue the same upsert up to the foreign-key
pragma, which does not change table contents).  Signature records match no
case of the source's `match` statement and are ignored. -/
def writerStep (st : WriterState) (datum : Item) : WriterState :=
  match datum with
  | .mod md =>
    let st1 : WriterState := match st.cur_module with
      | some cur =>
        let db' : DB :=
          ⟨fun n => if n = cur.name then
              (st.db.modules n).map
                (fun r => (⟨r.name, r.directory, r.file, some st.item_count,
                            some "OK", none⟩ : ModRow))
            else st.db.modules n,
           st.db.module_data⟩
        ⟨db', st.item_count, st.cur_module, st.updates ++ [(cur.name, st.item_count)]⟩
      | none => st
    let row : ModRow :=
      ⟨md.name, md.directory, md.file, md.count, statusToDb md.status, md.reason⟩
    let db2 : DB :=
      ⟨fun n => if n = md.name then some row else st1.db.modules n,
       st1.db.module_data⟩
    if md.status.isSome then ⟨db2, 0, st1.cur_module, st1.updates⟩
    else ⟨db2, 0, some md, st1.updates⟩
  | .dat _ d =>
    let db' : DB :=
      ⟨st.db.modules,
       fun k => if k = (d.name, d.type.ename) then some (dataRowOf d)
                else st.db.module_data k⟩
    ⟨db', st.item_count + 1, st.cur_module, st.updates⟩
  | .sig _ => st

/-- Run the writer over a stream. -/
def writerRun (st : WriterState) (stream : List Item) : WriterState :=
  stream.foldl writerStep st

/-- One pipeline run against an existing database: a fresh writer closure
(`item_count = 0`, no open module) consuming the stream. -/
def runStream (db : DB) (stream : List Item) : DB :=
  (writerRun ⟨db, 0, none, []⟩ stream).db

/-- SQLite's `status = 'OK'` `WHERE` predicate: comparison with `NULL` is
`NULL`, which does not select the row. -/
def sqlEqOK (status : Option String) : Bool :=
  match status with
  | none => false
  | some v => v == "OK"

/-- SQLite's `status <> 'OK'` `WHERE` predicate: comparison with `NULL` is
`NULL`, which does not select the row — a `NULL` status is *not* selected. -/
def sqlNeqOK (status : Option String) : Bool :=
  match status with
  | none => false
  | some v => v != "OK"

/-- `get_stored_modules` from `analysis_db.py`, over the rows of
`houdini_modules`: the names selected by
`SELECT name FROM houdini_modules where status = 'OK'` when `successful`,
followed by those selected by `… where status <> 'OK'` when `failed`. -/
def get_stored_modules (rows : List ModRow) (successful failed : Bool) :
    List String :=
  (if successful then (rows.filter (fun r => sqlEqOK r.status)).map (·.name)
   else []) ++
  (if failed then (rows.filter (fun r => sqlNeqOK r.status)).map (·.name)
   else [])

/-- The frozen `_no_mock` name set from `infinite_mock.py`. -/
def no_mock : List String :=
  ["in_traceback", "_path_", "__path_",
   "__getattr__", "__setattr__", "__getitem__",
   "__setitem__", "__iter__", "__len__", "__int__",
   "__index__", "__bool__",
   "__add__", "__radd__", "__sub__", "__rsub__",
   "__neg__", "__mul__", "__rmul__", "__div__",
   "__rdiv__", "__truediv__", "__rtruediv__",
   "__divmod__", "__rdivmod__", "__floordiv__",
   "__rfloordiv__", "__mod__", "__rmod__",
   "__pow__", "__rpow__", "__lshift__", "__rlshift__",
   "__rshift__", "__rrshift__", "__and__", "__rand__",
   "__or__", "__ror__", "__xor__", "__rxor__",
   "__float__", "__str__", "__call__", "__repr__",
   "_in_traceback_", "_hou_",
   "__name__"]

/-- The attribute names an `InfiniteMock` instance resolves through normal
Python attribute lookup, so that `__getattr__` is never invoked for them:
the two instance attributes bound in `__init__` (its `__setattr__` stores
exactly the `_no_mock` names), everything defined in the class body of
`InfiniteMock`, and the standard attributes inherited from `ModuleType`
and `object`.  Models CPython's default `__getattribute__` over the class
as written in `infinite_mock.py`. -/
def mockResolvedAttrs : List String :=
  ["_hou_", "__name__",
   "_in_traceback_", "__init__", "__getattr__", "__setattr__",
   "__getitem__", "__setitem__", "__iter__", "__len__", "__int__",
   "__index__", "__bool__", "__float__",
   "__add__", "__radd__", "__sub__", "__rsub__", "__neg__",
   "__mul__", "__rmul__", "__div__", "__rdiv__",
   "__truediv__", "__rtruediv__", "__divmod__", "__rdivmod__",
   "__floordiv__", "__rfloordiv__", "__mod__", "__rmod__",
   "__pow__", "__rpow__", "__lshift__", "__rlshift__",
   "__rshift__", "__rrshift__", "__and__", "__rand__",
   "__or__", "__ror__", "__xor__", "__rxor__",
   "__str__", "__repr__", "__call__",
   "__class__", "__delattr__", "__dict__", "__dir__", "__doc__",
   "__eq__", "__format__", "__ge__", "__getattribute__", "__gt__",
   "__hash__", "__init_subclass__", "__le__", "__lt__", "__module__",
   "__ne__", "__new__", "__qualname__", "__reduce__", "__reduce_ex__",
   "__sizeof__", "__subclasshook__", "__annotations__"]

/-- An `InfiniteMock` instance as constructed by `InfiniteMock(hou, path)`:
its `_hou_` binding (identified by name) and its `__name__` path.  Instances
are modelled as freshly constructed; the only mutation the class ever
performs on an existing instance is `self.in_traceback = True` inside the
`'this'` arm, which no other code reads (the guard there reads the distinct,
never-assigned name `_in_traceback_`). -/
structure Mock where
  houName : String
  mname : String
deriving Repr, DecidableEq

/-- The result of a Python attribute access on an `InfiniteMock`. -/
inductive AttrResult where
  | mock (m : Mock)
  | other
  | attrError
deriving Repr, DecidableEq

/-- Python attribute access `getattr(self, name)` on an `InfiniteMock`:
normal lookup first (yielding the bound value — never a fresh mock — for the
resolved names); on failure, `InfiniteMock.__getattr__`, which for a
`_no_mock` name re-runs `super().__getattribute__(name)` — raising
`AttributeError`, since normal lookup already failed — and otherwise runs
the `match`: `colorFromName` returns a local function, `__qualname__` a
string, `__file__`/`__doc__`/`__annotations__` `None`, `__mro_entries__` a
local function, and every remaining name — including `this`, whose
`_in_traceback_` guard is always `False` so its `except` arm runs — returns
`InfiniteMock(self._hou_, f'\x7bself.__name__\x7d.\x7bname\x7d')`. -/
def mockGetattr (self : Mock) (name : String) : AttrResult :=
  if mockResolvedAttrs.contains name then .other
  else if no_mock.contains name then .attrError
  else if name == "colorFromName" then .other
  else if name == "__qualname__" then .other
  else if name == "__file__" || name == "__doc__" || name == "__annotations__" then .other
  else if name == "__mro_entries__" then .other
  else .mock ⟨self.houName, self.mname ++ "." ++ name⟩

/-- `InfiniteMock.__getitem__`: always another `InfiniteMock`. -/
def mockGetitem (self : Mock) (key : String) : Mock :=
  ⟨self.houName, self.mname ++ "[" ++ key ++ "]"⟩

/-- `InfiniteMock.__call__`: ignores all arguments and returns another
`InfiniteMock`. -/
def mockCall (self : Mock) (_args : List String) : Mock :=
  ⟨self.houName, self.mname ++ "()"⟩

/-- The names `InfiniteMock.__getattr__` special-cases to a non-mock value. -/
def mockSpecialNames : List String :=
  ["colorFromName", "__qualname__", "__file__", "__doc__", "__annotations__",
   "__mro_entries__"]

/-- Follow a chain of attribute accesses, continuing while each access
returns another mock. -/
def chainAccess (self : Mock) : List String → AttrResult
  | [] => .mock self
  | n :: ns =>
    match mockGetattr self n with
    | .mock m => chainAccess m ns
    | r => r

/-- `d`'s recorded parent link names the entity `p`. -/
def parentOf (p d : HoudiniStaticData) : Prop :=
  d.parent_name = some p.name ∧ d.parent_type = some p.type

/-- `SegOK acc items`: `items` contains no `ModuleData` marker, and every
`HoudiniStaticData` in it names as parent either an entity in `acc` or an
entity emitted earlier in `items` — i.e. every datum belongs, through its
parent chain, to the entities of `acc`. -/
inductive SegOK : List HoudiniStaticData → List Item → Prop
  | nil (acc : List HoudiniStaticData) : SegOK acc []
  | dat (acc : List HoudiniStaticData) (oid : Option Nat)
      (d : HoudiniStaticData) (rest : List Item) (p : HoudiniStaticData)
      (hp : p ∈ acc) (hpar : parentOf p d) (h : SegOK (d :: acc) rest) :
      SegOK acc (Item.dat oid d :: rest)
  | sig (acc : List HoudiniStaticData) (s : SigRec) (rest : List Item)
      (h : SegOK acc rest) : SegOK acc (Item.sig s :: rest)

/-- `ModBlocks stream`: the stream decomposes into module blocks.  Each block
opens with a `ModuleData` marker and either carries nothing (ignore/failure
records) or continues with the opened module's own entity `m0` (same name as
the marker) followed by a body every datum of which chains, through recorded
parent links within the block, back to `m0` — so no entity between one
`ModuleData` and the next belongs to a module opened earlier or later. -/
inductive ModBlocks : List Item → Prop
  | nil : ModBlocks []
  | bare (md : ModuleData) (rest : List Item) (h : ModBlocks rest) :
      ModBlocks (Item.mod md :: rest)
  | block (md : ModuleData) (oid : Option Nat) (m0 : HoudiniStaticData)
      (body rest : List Item) (hname : m0.name = md.name)
      (hbody : SegOK [m0] body) (h : ModBlocks rest) :
      ModBlocks (Item.mod md :: Item.dat oid m0 :: (body ++ rest))

/-- The datums of an item list, most recent first, pushed onto `acc` — the
entities available as parents for what is emitted after the list. -/
def pushDats (acc : List HoudiniStaticData) (l : List Item) :
    List HoudiniStaticData :=
  l.foldl (fun a i => match i with
    | .dat _ d => d :: a
    | _ => a) acc

/-- The object identities of the per-visit module/class datums in a stream
(the emissions guarded by the `seen` set). -/
def visitOids (l : List Item) : List Nat :=
  l.filterMap (fun i => match i with
    | .dat (some oid) _ => some oid
    | _ => none)

/-- The seen-set invariant of one walk step: the seen set only grows, each
visited module/class is emitted at most once, and an object is visit-emitted
exactly when it was unseen before and seen after. -/
def WalkInv (seen0 : List Nat) (items : List Item) (seen1 : List Nat) : Prop :=
  (∀ x ∈ seen0, x ∈ seen1) ∧ (visitOids items).Nodup ∧
    ∀ oid ∈ visitOids items, oid ∉ seen0 ∧ oid ∈ seen1

/-- A `PyObj` with every field empty or false, for building worlds. -/
def objDefault : PyObj :=
  ⟨"", "", "", none, none, none, [], false, false, false, false, false, false,
   false, false, false, false, false, false⟩

/-- The trivial signature harvest: no overload information collected. -/
def sigFn0 : SigFn := fun _ _ => []

/-- A world with two root modules `a` (identity 1) and `b` (identity 2) that
both expose the same class object `C` (identity 3) as a public member. -/
def w2 : World := fun i =>
  match i with
  | 1 => { objDefault with
            name := "a", typeName := "module", isModule := true,
            members := [("C", 3)] }
  | 2 => { objDefault with
            name := "b", typeName := "module", isModule := true,
            members := [("C", 3)] }
  | 3 => { objDefault with name := "C", typeName := "type", isClass := true }
  | _ => objDefault

/-- Stream for exercising the writer's module-finalization bookkeeping:
module `A` opens and receives two entities, then an `IGNORE` record for `B`
arrives, then module `C` opens. -/
def mdA : ModuleData := mkModuleData "A" none none none none

/-- The `IGNORE` record for `B` in the writer stream. -/
def mdB : ModuleData := mkModuleData "B" none none (some MStatus.ignore) (some "known to crash")

/-- The record opening module `C` in the writer stream. -/
def mdC : ModuleData := mkModuleData "C" none none none none

/-- The root entity of module `A` in the writer stream. -/
def eA : HoudiniStaticData := ⟨"A", .MODULE, ⟨"module"⟩, none, none, none⟩

/-- A member entity of module `A` in the writer stream. -/
def eF : HoudiniStaticData :=
  ⟨"f", .FUNCTION, ⟨"function"⟩, none, some "A", some .MODULE⟩

/-- The writer stream: open `A`, two entities for `A`, `IGNORE` record for
`B`, open `C`. -/
def streamC3 : List Item :=
  [Item.mod mdA, Item.dat (some 1) eA, Item.dat none eF, Item.mod mdB,
   Item.mod mdC]

/-- A world with one importable module `m2` (identity 10). -/
def w4 : World := fun i =>
  match i with
  | 10 => { objDefault with
             name := "m2", typeName := "module", isModule := true }
  | _ => objDefault

/-- An importer for which `import_module("m1")` raises
`RuntimeError("boom")` and every other import returns the module with
identity 10. -/
def imp4 : Importer := fun n =>
  if n == "m1" then .raises "RuntimeError" "boom" else .rets 10

/-- A member object named `Foo` whose runtime type is named `EnumValue` (an
enum instance of the host's enum-value wrapper type); none of the `inspect`
predicates hold for it. -/
def enumValObj : PyObj :=
  { objDefault with
     name := "Foo", typeName := "EnumValue", isEnumInstance := true }

/-- A class `K` (identity 20) exposing `Foo` (identity 21) as a member. -/
def kObj : PyObj :=
  { objDefault with
     name := "K", moduleName := "m", typeName := "type", isClass := true,
     members := [("Foo", 21)] }

/-- The world for the enum-value special-case check. -/
def w6 : World := fun i =>
  match i with
  | 20 => kObj
  | 21 => enumValObj
  | _ => objDefault

/-- The parent entity (a module datum) under which `K` is walked. -/
def parent6 : HoudiniStaticData := ⟨"m", .MODULE, ⟨"module"⟩, none, none, none⟩

/-- The row written at a datum's primary key after the writer consumes it:
the recorded `(value_type)` of a datum is the `datatype` column of this row. -/
def recordedRow (st : WriterState) (d : HoudiniStaticData) : Option DataRow :=
  (writerStep st (Item.dat none d)).db.module_data (d.name, d.type.ename)

/-- The effect of a stream on the `houdini_module_data` table alone: the fold
of the per-datum upserts (module records and signatures leave it unchanged). -/
def dataFold (m : (String × String) → Option DataRow) (s : List Item) :
    (String × String) → Option DataRow :=
  s.foldl (fun acc i =>
    match i with
    | Item.dat _ d =>
        fun k => if k = (d.name, d.type.ename) then some (dataRowOf d) else acc k
    | _ => acc) m

/-- The row a single item would upsert at key `k`, if any. -/
def itemUpd (i : Item) (k : String × String) : Option DataRow :=
  match i with
  | Item.dat _ d => if k = (d.name, d.type.ename) then some (dataRowOf d) else none
  | _ => none

/-- The last row a stream writes at key `k`, if any. -/
def lastData : List Item → (String × String) → Option DataRow
  | [], _ => none
  | i :: s, k =>
    match lastData s k with
    | some r => some r
    | none => itemUpd i k

/-! ### Helper lemmas about the datum constructor -/

/-- A datum built with parent `p` records exactly `p`'s name and type as its
parent link, whatever the classification branches do. -/
theorem mk_datum_parentOf (item : PyObj) (ty : EntryType)
    (p : HoudiniStaticData) (nameArg : Option String) :
    parentOf p (_mk_datum item ty (some p) nameArg) :=
  ⟨rfl, rfl⟩

/-- The `datatype` recorded by `_mk_datum` is always `_dtype item`: the only
branch that would override it — `datatype == 'EnumValue'` — compares a `type`
object with a `str` and never fires. -/
theorem mk_datum_datatype (item : PyObj) (ty : EntryType)
    (parent : Option HoudiniStaticData) (nameArg : Option String) :
    (_mk_datum item ty parent nameArg).datatype = _dtype item := by
  unfold _mk_datum
  simp only [pyTypeEqStr, Bool.false_eq_true, if_false]
  split <;> rfl

/-- The `docstring` recorded by `_mk_datum` is `_docstring item`. -/
theorem mk_datum_docstring (item : PyObj) (ty : EntryType)
    (parent : Option HoudiniStaticData) (nameArg : Option String) :
    (_mk_datum item ty parent nameArg).docstring = _docstring item := rfl

/-- A datum built with `nameArg` equal to the item's own name carries that
name (the `or`-chain's empty-string fallback lands on the same value). -/
theorem mk_datum_name_self (item : PyObj) (ty : EntryType)
    (parent : Option HoudiniStaticData) :
    (_mk_datum item ty parent (some item.name)).name = item.name := by
  unfold _mk_datum
  simp only [ite_self]

/-! ### Theorems for the claims, and their supporting lemmas -/

/-- C8: for every reflected object whose documentation string is string-equal
to the documentation string of the object's own type, the recorded doc is
null; an absent documentation string is likewise recorded as null. -/
theorem c8_doc_suppression (v : PyObj) (ty : EntryType)
    (parent : Option HoudiniStaticData) (nameArg : Option String)
    (h : v.doc = none ∨ v.doc = v.typeDoc) :
    (_mk_datum v ty parent nameArg).docstring = none := by
  rw [mk_datum_docstring]
  rcases h with h | h
  · simp [_docstring, h]
  · unfold _docstring
    rw [← h]
    cases v.doc with
    | none => rfl
    | some own => simp

/-- Witness for C8: an object whose doc string equals its type's doc string
is recorded with a null doc. -/
theorem c8_doc_suppression_witness :
    (_mk_datum { objDefault with doc := some "shared doc", typeDoc := some "shared doc" }
      EntryType.OBJECT none none).docstring = none :=
  c8_doc_suppression _ _ _ _ (Or.inr rfl)

/-- The writer's recorded row for a datum exists and is `dataRowOf`. -/
theorem recordedRow_eq (st : WriterState) (d : HoudiniStaticData) :
    recordedRow st d = some (dataRowOf d) := by
  simp [recordedRow, writerStep]

/-- The `datatype` column of a written row is the datum's type name. -/
theorem dataRowOf_datatype (d : HoudiniStaticData) :
    (dataRowOf d).datatype = d.datatype.tname := by
  unfold dataRowOf
  split <;> rfl

/-- C7: for every runtime value whose type name contains the case-sensitive
substring `tuple` or `Tuple`, the `value_type` recorded in the database is
exactly the literal string `"tuple"`, whatever the classification, parent and
name, and whatever writer state receives the datum. -/
theorem c7_tuple_normalization (v : PyObj) (ty : EntryType)
    (parent : Option HoudiniStaticData) (nameArg : Option String)
    (st : WriterState)
    (h : strIn "tuple" v.typeName = true ∨ strIn "Tuple" v.typeName = true) :
    (recordedRow st (_mk_datum v ty parent nameArg)).map (·.datatype) =
      some "tuple" := by
  rw [recordedRow_eq]
  simp only [Option.map_some']
  rw [dataRowOf_datatype, mk_datum_datatype]
  unfold _dtype
  rcases h with h | h <;> simp [h]

/-- Witness for C7: a value of a type named `Vector2tuple` is recorded with
`value_type = "tuple"`. -/
theorem c7_tuple_normalization_witness :
    (recordedRow ⟨DB.empty, 0, none, []⟩
        (_mk_datum { objDefault with typeName := "Vector2tuple" }
          EntryType.OBJECT none none)).map (·.datatype) = some "tuple" :=
  c7_tuple_normalization _ _ _ _ _ (Or.inl (by decide))

/-- C6 (code bug): walking a class `K` whose member `Foo` is a value of the
type named `EnumValue` records `Foo` with kind `OBJECT` and `value_type`
`EnumValue` — not kind `Enum` with the parent's `value_type` — because the
override branch `datatype == 'EnumValue'` in `_mk_datum` compares a `type`
object against a `str` and can never fire (second conjunct: the recorded
`datatype` always equals `_dtype item`, so no parent override ever occurs). -/
theorem c6_enumvalue_override_never_fires :
    ((loadClass w6 sigFn0 3 20 parent6 ⟨[], [], []⟩ none).1 =
      [Item.dat (some 20)
          ⟨"K", EntryType.CLASS, ⟨"type"⟩, none, some "m", some EntryType.MODULE⟩,
       Item.dat none
          ⟨"Foo", EntryType.OBJECT, ⟨"EnumValue"⟩, none, some "K", some EntryType.CLASS⟩]) ∧
    ∀ (item : PyObj) (ty : EntryType) (parent : Option HoudiniStaticData)
      (nameArg : Option String),
      (_mk_datum item ty parent nameArg).datatype = _dtype item :=
  ⟨by
    simp [loadClass, classMembers, w6, kObj, enumValObj, objDefault, parent6, sigFn0]
    decide, mk_datum_datatype⟩

/-- C3 (code bug): on the stream that opens module `A`, delivers two entities
for it, then an `IGNORE` record for `B`, then opens `C`, the writer issues
*two* finalizing `UPDATE`s for `A` — first with the correct count 2, then
(because the `IGNORE` record never cleared `cur_module`) a spurious second
one with count 0 — leaving `A`'s stored count at 0. -/
theorem c3_spurious_refinalization :
    (writerRun ⟨DB.empty, 0, none, []⟩ streamC3).updates = [("A", 2), ("A", 0)] ∧
    ((writerRun ⟨DB.empty, 0, none, []⟩ streamC3).db.modules "A").map (·.count) =
      some (some 0) ∧
    ((writerRun ⟨DB.empty, 0, none, []⟩ streamC3).db.modules "A").map (·.status) =
      some (some "OK") := by
  refine ⟨by decide, ?_, ?_⟩ <;> rfl

/-- C9 counterexample: accessing the attribute `_path_` of an `InfiniteMock`
raises `AttributeError` (the name is in `_no_mock` but resolves to nothing),
refuting "for every attribute name … never raises `AttributeError`". -/
theorem c9_path_attr_error :
    mockGetattr ⟨"hou", "hou.ui"⟩ "_path_" = AttrResult.attrError := by decide

/-- C9 (amended): for every attribute name outside the normally-resolved
attributes, the `_no_mock` list and the special-cased names, attribute access
returns another `InfiniteMock`; item access and calls always return another
`InfiniteMock`; and a chain of such attribute accesses of arbitrary depth
succeeds, producing a mock. -/
theorem c9_amended_mock_access (self : Mock) (name key : String)
    (args : List String) (names : List String)
    (h1 : name ∉ mockResolvedAttrs) (h2 : name ∉ no_mock)
    (h3 : name ∉ mockSpecialNames) :
    mockGetattr self name = AttrResult.mock ⟨self.houName, self.mname ++ "." ++ name⟩ ∧
    mockGetitem self key = ⟨self.houName, self.mname ++ "[" ++ key ++ "]"⟩ ∧
    mockCall self args = ⟨self.houName, self.mname ++ "()"⟩ ∧
    ((∀ n ∈ names, n ∉ mockResolvedAttrs ∧ n ∉ no_mock ∧ n ∉ mockSpecialNames) →
      ∃ m : Mock, chainAccess self names = AttrResult.mock m) := by
  have step : ∀ (s : Mock) (n : String), n ∉ mockResolvedAttrs → n ∉ no_mock →
      n ∉ mockSpecialNames →
      mockGetattr s n = AttrResult.mock ⟨s.houName, s.mname ++ "." ++ n⟩ := by
    intro s n hn1 hn2 hn3
    simp only [mockSpecialNames, List.mem_cons, List.not_mem_nil, or_false,
      not_or] at hn3
    obtain ⟨e1, e2, e3, e4, e5, e6⟩ := hn3
    simp [mockGetattr, hn1, hn2, e1, e2, e3, e4, e5, e6]
  refine ⟨step self name h1 h2 h3, rfl, rfl, ?_⟩
  intro hall
  induction names generalizing self with
  | nil => exact ⟨self, rfl⟩
  | cons n ns ih =>
      have hn := hall n (List.mem_cons_self n ns)
      have hrest : ∀ x ∈ ns, x ∉ mockResolvedAttrs ∧ x ∉ no_mock ∧ x ∉ mockSpecialNames :=
        fun x hx => hall x (List.mem_cons_of_mem _ hx)
      obtain ⟨m, hm⟩ := ih ⟨self.houName, self.mname ++ "." ++ n⟩ hrest
      exact ⟨m, by
        unfold chainAccess
        rw [step self n hn.1 hn.2.1 hn.2.2]
        exact hm⟩

/-- Witness for C9 (amended): the chain `hou.ui.someWidget.someMethod`
resolves to a mock at every step. -/
theorem c9_amended_mock_access_witness :
    mockGetattr ⟨"hou", "hou"⟩ "ui" = AttrResult.mock ⟨"hou", "hou.ui"⟩ ∧
    mockGetitem ⟨"hou", "hou"⟩ "k" = ⟨"hou", "hou[k]"⟩ ∧
    mockCall ⟨"hou", "hou"⟩ ["x"] = ⟨"hou", "hou()"⟩ ∧
    ((∀ n ∈ ["someWidget", "someMethod"],
        n ∉ mockResolvedAttrs ∧ n ∉ no_mock ∧ n ∉ mockSpecialNames) →
      ∃ m : Mock, chainAccess ⟨"hou", "hou"⟩ ["someWidget", "someMethod"] =
        AttrResult.mock m) :=
  c9_amended_mock_access ⟨"hou", "hou"⟩ "ui" "k" ["x"] ["someWidget", "someMethod"]
    (by decide) (by decide) (by decide)

/-- C10: a `houdini_modules` row whose `status` is SQL `NULL` (a module
opened but never finalized) is selected by neither the `status = 'OK'` filter
nor the `status <> 'OK'` filter, for every flag combination — so the `done`
set a resumed run builds from `get_stored_modules` never contains it and the
module is re-processed. -/
theorem c10_null_status_excluded (rows : List ModRow) (r : ModRow)
    (succ fail : Bool) (hr : r ∈ rows) (hs : r.status = none)
    (hnd : (rows.map ModRow.name).Nodup) :
    r.name ∉ get_stored_modules rows succ fail := by
  have key : ∀ (p : ModRow → Bool), p r = false →
      r.name ∉ (rows.filter p).map ModRow.name := by
    intro p hp hmem'
    rcases List.mem_map.1 hmem' with ⟨r', hr', hname⟩
    rcases List.mem_filter.1 hr' with ⟨hr'mem, hr'p⟩
    have : r' = r := List.inj_on_of_nodup_map hnd hr'mem hr hname
    rw [this] at hr'p
    rw [hp] at hr'p
    exact Bool.false_ne_true hr'p
  intro hmem
  unfold get_stored_modules at hmem
  rcases List.mem_append.1 hmem with h | h
  · cases succ with
    | false => exact List.not_mem_nil r.name h
    | true => exact key _ (by simp [sqlEqOK, hs]) h
  · cases fail with
    | false => exact List.not_mem_nil r.name h
    | true => exact key _ (by simp [sqlNeqOK, hs]) h

/-- Witness for C10: a crashed-mid-module row (`status` NULL) is excluded
from both filters. -/
theorem c10_null_status_excluded_witness :
    ("pkg" : String) ∉
      get_stored_modules
        [⟨"pkg", none, none, none, none, none⟩,
         ⟨"os", none, none, some 3, some "OK", none⟩] true true :=
  c10_null_status_excluded _ ⟨"pkg", none, none, none, none, none⟩ true true
    (by decide) rfl (by decide)

/-- C2 counterexample: in one run of `analyze_modules` over two roots that
both expose the same class object (identity 3), that class is emitted as a
`ReflectedEntity` twice — once per root — because `analyze_modules` passes a
*fresh* `seen=set()` to `_load_module` for every root, so the seen identity
set is not maintained across the whole walk and "exactly once" fails. -/
theorem c2_class_emitted_twice :
    (visitOids (analyze_modules w2 sigFn0 4 [Sum.inl 1, Sum.inl 2] [] [])).count 3 = 2 := by
  simp [analyze_modules, analyzeGo, loadModule, moduleMembers, loadClass,
        classMembers, drainQueue, w2, objDefault, sigFn0]
  decide

/-- C4 counterexample: for the candidate `m1` (origin file `/site/m1.py`)
whose import raises `RuntimeError("boom")`, the pipeline produces exactly one
record and continues with the next candidate — but the record's `file` is
`None`, not the origin file (`modules_in_path` does not pass the file to
`import_or_warn`), and the status the writer stores in `houdini_modules` is
the exception's *type name* `"RuntimeError"`, not `"boom"` (the message lands
in `reason`). -/
theorem c4_file_and_status_diverge :
    modules_in_path w4 imp4 [] []
        [("m1", some "/site/m1.py"), ("m2", some "/site/m2.py")] [] =
      [Sum.inr (mkModuleData "m1" none none
          (some (MStatus.exc "RuntimeError" "boom")) none),
       Sum.inl 10] ∧
    (mkModuleData "m1" none none (some (MStatus.exc "RuntimeError" "boom")) none).file
      ≠ some "/site/m1.py" ∧
    statusToDb (mkModuleData "m1" none none
        (some (MStatus.exc "RuntimeError" "boom")) none).status
      ≠ some "boom" := by
  refine ⟨by decide, by decide, by decide⟩

/-- C4 (amended): when importing a candidate raises an exception, the
pipeline yields exactly one `ModuleData` carrying the candidate's name and
the exception as its status (with the exception's message as `reason`), but
with `file = None` since `modules_in_path` does not pass the origin file; the
exception never propagates (the embedding is total) and the remaining
candidates are processed exactly as they would be alone. -/
theorem c4_amended_import_failure (w : World) (imp : Importer)
    (done : List String) (ignore : List (String × String)) (cand : String)
    (file : Option String) (rest : List (String × Option String))
    (seen : List Nat) (ty msg : String)
    (h1 : imp cand = .raises ty msg)
    (h2 : done.contains cand = false)
    (h3 : strStarts "zabob." cand = false)
    (h4 : ignore.lookup cand = none) :
    process_candidates w imp done ignore ((cand, file) :: rest) seen =
      (Sum.inr (mkModuleData cand none none (some (.exc ty msg)) none) ::
        (process_candidates w imp done ignore rest seen).1,
       (process_candidates w imp done ignore rest seen).2) ∧
    (mkModuleData cand none none (some (.exc ty msg)) none).name = cand ∧
    (mkModuleData cand none none (some (.exc ty msg)) none).file = none ∧
    (mkModuleData cand none none (some (.exc ty msg)) none).status =
      some (.exc ty msg) ∧
    (mkModuleData cand none none (some (.exc ty msg)) none).reason = some msg := by
  refine ⟨?_, rfl, rfl, rfl, rfl⟩
  have h2' : cand ∉ done := by simpa using h2
  simp [process_candidates, reject_name, h2', h3, h4, procNames,
        import_or_warn, h1, procMods, reject]

/-- Witness for C4 (amended) at the concrete failing import of `m1`. -/
theorem c4_amended_import_failure_witness :
    process_candidates w4 imp4 [] [] [("m1", some "/site/m1.py")] [] =
      (Sum.inr (mkModuleData "m1" none none
          (some (.exc "RuntimeError" "boom")) none) ::
        (process_candidates w4 imp4 [] [] [] []).1,
       (process_candidates w4 imp4 [] [] [] []).2) ∧
    (mkModuleData "m1" none none (some (.exc "RuntimeError" "boom")) none).name = "m1" ∧
    (mkModuleData "m1" none none (some (.exc "RuntimeError" "boom")) none).file = none ∧
    (mkModuleData "m1" none none (some (.exc "RuntimeError" "boom")) none).status =
      some (.exc "RuntimeError" "boom") ∧
    (mkModuleData "m1" none none (some (.exc "RuntimeError" "boom")) none).reason =
      some "boom" :=
  c4_amended_import_failure w4 imp4 [] [] "m1" (some "/site/m1.py") [] []
    "RuntimeError" "boom" (by decide) (by decide) (by decide) (by decide)

/-- A single writer step only changes `houdini_module_data` by the datum
upsert: module records touch the `houdini_modules` table alone and signature
records match no case. -/
theorem writerStep_module_data (st : WriterState) (i : Item) :
    (writerStep st i).db.module_data =
      match i with
      | Item.dat _ d =>
          fun k => if k = (d.name, d.type.ename) then some (dataRowOf d)
                   else st.db.module_data k
      | _ => st.db.module_data := by
  cases i with
  | mod md => cases hc : st.cur_module <;> simp [writerStep, hc] <;> split <;> rfl
  | dat oid d => rfl
  | sig s => rfl

/-- The writer's effect on the `houdini_module_data` table does not depend on
its bookkeeping state: it is exactly the fold of the per-datum upserts. -/
theorem writerRun_module_data (s : List Item) : ∀ (st : WriterState),
    (writerRun st s).db.module_data = dataFold st.db.module_data s := by
  induction s with
  | nil => intro st; rfl
  | cons i s ih =>
      intro st
      show (writerRun (writerStep st i) s).db.module_data = _
      rw [ih]
      show _ = dataFold (match i with
        | Item.dat _ d =>
            fun k => if k = (d.name, d.type.ename) then some (dataRowOf d)
                     else st.db.module_data k
        | _ => st.db.module_data) s
      rw [writerStep_module_data]

/-- Looking up a key after the fold yields the stream's last write at that
key, falling back to the starting table. -/
theorem dataFold_lookup (s : List Item) : ∀ (m : (String × String) → Option DataRow)
    (k : String × String),
    dataFold m s k =
      match lastData s k with
      | some r => some r
      | none => m k := by
  induction s with
  | nil => intro m k; rfl
  | cons i s ih =>
      intro m k
      show dataFold (match i with
        | Item.dat _ d =>
            fun k => if k = (d.name, d.type.ename) then some (dataRowOf d) else m k
        | _ => m) s k = _
      rw [ih]
      cases h : lastData s k with
      | some r => simp [lastData, h]
      | none =>
          simp only [lastData, h]
          cases i with
          | dat oid d =>
              simp only [itemUpd]
              split <;> rfl
          | mod md => rfl
          | sig s' => rfl

/-- C5: writing the same stream a second time against the output database of
the first run leaves the `houdini_module_data` table identical — every entity
row is an upsert at its `(name, kind)` primary key, so the second run's last
write at each key equals the first run's. -/
theorem c5_idempotent_module_data (db : DB) (s : List Item) :
    (runStream (runStream db s) s).module_data = (runStream db s).module_data := by
  funext k
  show (writerRun ⟨runStream db s, 0, none, []⟩ s).db.module_data k =
    (writerRun ⟨db, 0, none, []⟩ s).db.module_data k
  rw [writerRun_module_data, writerRun_module_data]
  rw [dataFold_lookup, dataFold_lookup]
  cases h : lastData s k with
  | some r => simp
  | none =>
      simp only []
      show (runStream db s).module_data k = db.module_data k
      show (writerRun ⟨db, 0, none, []⟩ s).db.module_data k = db.module_data k
      rw [writerRun_module_data, dataFold_lookup, h]

/-! ### The module/item alternation invariant (C1) -/

/-- Weakening: a segment chained into `acc` is chained into any superset. -/
theorem segOK_mono {acc : List HoudiniStaticData} {l : List Item}
    (h : SegOK acc l) :
    ∀ {acc' : List HoudiniStaticData}, (∀ x ∈ acc, x ∈ acc') → SegOK acc' l := by
  induction h with
  | nil acc => intro acc' _; exact .nil _
  | dat acc oid d rest p hp hpar _ ih =>
      intro acc' hsub
      refine .dat _ _ _ _ p (hsub p hp) hpar (ih ?_)
      intro x hx
      rcases List.mem_cons.1 hx with h | h
      · rw [h]; exact List.mem_cons_self _ _
      · exact List.mem_cons_of_mem _ (hsub x h)
  | sig acc s rest _ ih => intro acc' hsub; exact .sig _ _ _ (ih hsub)

/-- Everything in `acc` stays available after pushing a list's datums. -/
theorem subset_pushDats (l : List Item) :
    ∀ (acc : List HoudiniStaticData), ∀ x ∈ acc, x ∈ pushDats acc l := by
  induction l with
  | nil => intro acc x hx; exact hx
  | cons i l ih =>
      intro acc x hx
      cases i with
      | dat oid d => exact ih (d :: acc) x (List.mem_cons_of_mem _ hx)
      | mod md => exact ih acc x hx
      | sig s => exact ih acc x hx

/-- Chained segments compose: after `l1`, a segment chained into `acc`
extended by `l1`'s datums may follow. -/
theorem segOK_append {acc : List HoudiniStaticData} {l1 : List Item}
    (h1 : SegOK acc l1) :
    ∀ {l2 : List Item}, SegOK (pushDats acc l1) l2 → SegOK acc (l1 ++ l2) := by
  induction h1 with
  | nil acc => intro l2 h2; exact h2
  | dat acc oid d rest p hp hpar _ ih =>
      intro l2 h2
      exact .dat _ _ _ _ p hp hpar (ih h2)
  | sig acc s rest _ ih => intro l2 h2; exact .sig _ _ _ (ih h2)

/-- Signature records alone form a chained segment over any entity set. -/
theorem segOK_sigs (acc : List HoudiniStaticData) (f : String → SigRec) :
    ∀ (l : List String), SegOK acc (l.map (fun p => Item.sig (f p))) := by
  intro l
  induction l with
  | nil => exact .nil _
  | cons p l ih => exact .sig _ _ _ ih

/-- Every datum the class member loop emits chains back to the class's datum
(or deeper), provided the class walk itself does (hypothesis `hCL`, supplied
at the same fuel by the fuel induction). -/
theorem classMembers_segOK (w : World) (sigFn : SigFn) (fuel : Nat)
    (hCL : ∀ (cid : Nat) (parent : HoudiniStaticData) (st : WalkState)
      (nameArg : Option String) (acc : List HoudiniStaticData), parent ∈ acc →
      SegOK acc (loadClass w sigFn fuel cid parent st nameArg).1) :
    ∀ (ms : List (String × Nat)) (c : PyObj) (name : String)
      (parent class_data : HoudiniStaticData) (st : WalkState)
      (acc : List HoudiniStaticData), class_data ∈ acc →
      SegOK acc (classMembers w sigFn fuel c name parent class_data ms st).1 := by
  intro ms
  induction ms with
  | nil =>
      intro c name parent class_data st acc hmem
      simp only [classMembers]
      exact .nil _
  | cons hd rest ih =>
      obtain ⟨mn, mid⟩ := hd
      intro c name parent class_data st acc hmem
      simp only [classMembers]
      refine segOK_append ?_
        (ih c name parent class_data _ _ (subset_pushDats _ _ _ hmem))
      repeat' split
      all_goals
        first
          | exact SegOK.nil _
          | exact hCL _ _ _ _ acc hmem
          | (refine SegOK.dat _ _ _ _ _ hmem (mk_datum_parentOf _ _ _ _) ?_
             first
               | exact segOK_sigs _ _ _
               | exact SegOK.nil _)

/-- Every datum a class walk emits chains back to the parent entity passed
in (for all fuels). -/
theorem loadClass_segOK (w : World) (sigFn : SigFn) :
    ∀ (fuel : Nat) (cid : Nat) (parent : HoudiniStaticData) (st : WalkState)
      (nameArg : Option String) (acc : List HoudiniStaticData), parent ∈ acc →
      SegOK acc (loadClass w sigFn fuel cid parent st nameArg).1 := by
  intro fuel
  induction fuel with
  | zero =>
      intro cid parent st nameArg acc hmem
      simp only [loadClass]
      exact .nil _
  | succ f ih =>
      intro cid parent st nameArg acc hmem
      rw [loadClass.eq_def]
      dsimp only
      repeat' split
      all_goals
        first
          | exact SegOK.nil _
          | (refine SegOK.dat _ _ _ _ parent hmem (mk_datum_parentOf _ _ _ _) ?_
             exact classMembers_segOK w sigFn f ih _ _ _ _ _ _ _
               (List.mem_cons_self _ _))

/-- Every datum the module member loop emits chains back to the module's
datum (or deeper). -/
theorem moduleMembers_segOK (w : World) (sigFn : SigFn) (fuel : Nat) :
    ∀ (ms : List (String × Nat)) (m : PyObj)
      (module_data : HoudiniStaticData) (st : WalkState)
      (acc : List HoudiniStaticData), module_data ∈ acc →
      SegOK acc (moduleMembers w sigFn fuel m module_data ms st).1 := by
  intro ms
  induction ms with
  | nil =>
      intro m module_data st acc hmem
      simp only [moduleMembers]
      exact .nil _
  | cons hd rest ih =>
      obtain ⟨mn, mid⟩ := hd
      intro m module_data st acc hmem
      simp only [moduleMembers]
      refine segOK_append ?_
        (ih m module_data _ _ (subset_pushDats _ _ _ hmem))
      repeat' split
      all_goals
        first
          | exact SegOK.nil _
          | exact loadClass_segOK w sigFn fuel _ _ _ _ acc hmem
          | (refine SegOK.dat _ _ _ _ _ hmem (mk_datum_parentOf _ _ _ _) ?_
             first
               | exact segOK_sigs _ _ _
               | exact SegOK.nil _)

/-- The module walk and the queue drain produce streams that decompose into
module blocks, in front of any stream that already does. -/
theorem loadModule_drain_modBlocks (w : World) (sigFn : SigFn) :
    ∀ (fuel : Nat),
      (∀ (mid : Nat) (parent : Option HoudiniStaticData) (st : WalkState)
        (done : List String) (ignore : List (String × String)) (top : Bool)
        (rest : List Item), ModBlocks rest →
        ModBlocks ((loadModule w sigFn fuel mid parent st done ignore top).1 ++ rest)) ∧
      (∀ (st : WalkState) (done : List String)
        (ignore : List (String × String)) (rest : List Item), ModBlocks rest →
        ModBlocks ((drainQueue w sigFn fuel st done ignore).1 ++ rest)) := by
  intro fuel
  induction fuel with
  | zero =>
      constructor
      · intro mid parent st done ignore top rest hrest
        simpa [loadModule] using hrest
      · intro st done ignore rest hrest
        simpa [drainQueue] using hrest
  | succ f ih =>
      constructor
      · intro mid parent st done ignore top rest hrest
        simp only [loadModule]
        split
        · simpa using hrest
        split
        · simpa using hrest
        split
        · exact ModBlocks.bare _ _ hrest
        · split
          · -- top-level call: members then the queue drain
            simp only [List.cons_append, List.append_assoc]
            refine ModBlocks.block _ _ _ _ _ (mk_datum_name_self _ _ _) ?_
              (ih.2 _ done ignore rest hrest)
            exact moduleMembers_segOK w sigFn f _ _ _ _ _ (List.mem_cons_self _ _)
          · simp only [List.cons_append]
            refine ModBlocks.block _ _ _ _ _ (mk_datum_name_self _ _ _) ?_ hrest
            exact moduleMembers_segOK w sigFn f _ _ _ _ _ (List.mem_cons_self _ _)
      · intro st done ignore rest hrest
        simp only [drainQueue]
        split
        · simpa using hrest
        · simp only [List.append_assoc]
          exact ih.1 _ _ _ done ignore false _ (ih.2 _ done ignore rest hrest)

/-- The stream `analyze_modules` emits decomposes into module blocks, for
every world, signature harvest, fuel, root list, ignore map and done set. -/
theorem analyzeGo_modBlocks (w : World) (sigFn : SigFn) (fuel : Nat)
    (done : List String) (ignore : List (String × String)) :
    ∀ (inc : List (Sum Nat ModuleData)) (q : List (HoudiniStaticData × Nat))
      (qd : List Nat), ModBlocks (analyzeGo w sigFn fuel done ignore inc q qd) := by
  intro inc
  induction inc with
  | nil => intro q qd; exact ModBlocks.nil
  | cons hd rest ih =>
      intro q qd
      cases hd with
      | inr md => exact ModBlocks.bare _ _ (ih _ _)
      | inl mid =>
          exact (loadModule_drain_modBlocks w sigFn fuel).1 _ _ _ _ _ _ _ (ih _ _)

/-- C1: in every stream `analyze_modules` emits, between any `ModuleRecord`
and the next, every `ReflectedEntity` chains through recorded parent links
back to the module opened by the first record (directly or via its classes),
and never to a module opened earlier or later: the stream decomposes into
module blocks (`ModBlocks`), each consisting of the opening record, the
module's own datum, and a body chained entirely within the block — nested
modules are deferred to the FIFO queue and walked only in later blocks. -/
theorem c1_module_item_alternation (w : World) (sigFn : SigFn) (fuel : Nat)
    (include_ : List (Sum Nat ModuleData)) (ignore : List (String × String))
    (done : List String) :
    ModBlocks (analyze_modules w sigFn fuel include_ ignore done) :=
  analyzeGo_modBlocks w sigFn fuel done ignore include_ [] []

/-! ### The seen-set invariant of one root walk (C2) -/

/-- `visitOids` distributes over append. -/
theorem visitOids_append (l1 l2 : List Item) :
    visitOids (l1 ++ l2) = visitOids l1 ++ visitOids l2 := by
  simp [visitOids, List.filterMap_append]

/-- Signature records carry no visit identities. -/
theorem visitOids_sigs (f : String → SigRec) (l : List String) :
    visitOids (l.map (fun p => Item.sig (f p))) = [] := by
  induction l with
  | nil => rfl
  | cons p l ih => exact ih

/-- The trivial walk invariant: nothing emitted, seen set unchanged. -/
theorem walkInv_refl (s : List Nat) : WalkInv s [] s :=
  ⟨fun _ h => h, List.nodup_nil, fun _ h => absurd h (List.not_mem_nil _)⟩

/-- A step that visit-emits nothing satisfies the invariant whenever the
seen set only grows. -/
theorem walkInv_no_visits {l : List Item} (h : visitOids l = [])
    {s s' : List Nat} (hsub : ∀ x ∈ s, x ∈ s') : WalkInv s l s' := by
  refine ⟨hsub, ?_, ?_⟩ <;> simp [h]

/-- Composition: two invariant-preserving steps in sequence preserve the
invariant, and their visit lists cannot overlap (the second step only emits
objects unseen after the first). -/
theorem walkInv_comp {s0 s1 s2 : List Nat} {l1 l2 : List Item}
    (h1 : WalkInv s0 l1 s1) (h2 : WalkInv s1 l2 s2) : WalkInv s0 (l1 ++ l2) s2 := by
  obtain ⟨m1, n1, p1⟩ := h1
  obtain ⟨m2, n2, p2⟩ := h2
  refine ⟨fun x hx => m2 x (m1 x hx), ?_, ?_⟩
  · rw [visitOids_append]
    refine n1.append n2 (List.disjoint_left.2 ?_)
    intro a ha1 ha2
    exact (p2 a ha2).1 ((p1 a ha1).2)
  · intro oid hoid
    rw [visitOids_append, List.mem_append] at hoid
    rcases hoid with h | h
    · exact ⟨(p1 oid h).1, m2 _ (p1 oid h).2⟩
    · exact ⟨fun hmem => (p2 oid h).1 (m1 _ hmem), (p2 oid h).2⟩

/-- A `ModuleData` marker does not affect the walk invariant. -/
theorem walkInv_mod_cons {s0 s1 : List Nat} {l : List Item} {md : ModuleData}
    (h : WalkInv s0 l s1) : WalkInv s0 (Item.mod md :: l) s1 := by
  obtain ⟨m, n, p⟩ := h
  exact ⟨m, n, p⟩

/-- Visit-emitting a fresh object and continuing with it marked seen
preserves the invariant. -/
theorem walkInv_visit_cons {s0 s1 : List Nat} {l : List Item} (oid : Nat)
    (d : HoudiniStaticData) (hnot : oid ∉ s0)
    (h : WalkInv (oid :: s0) l s1) :
    WalkInv s0 (Item.dat (some oid) d :: l) s1 := by
  obtain ⟨m, n, p⟩ := h
  refine ⟨fun x hx => m x (List.mem_cons_of_mem _ hx), ?_, ?_⟩
  · show (oid :: visitOids l).Nodup
    exact List.nodup_cons.2 ⟨fun hmem => (p _ hmem).1 (List.mem_cons_self _ _), n⟩
  · intro o ho
    rcases List.mem_cons.1 ho with h | h
    · subst h
      exact ⟨hnot, m _ (List.mem_cons_self _ _)⟩
    · exact ⟨fun hmem => (p _ h).1 (List.mem_cons_of_mem _ hmem), (p _ h).2⟩

/-- The class member loop preserves the walk invariant, provided the class
walk at the same fuel does. -/
theorem classMembers_walkInv (w : World) (sigFn : SigFn) (fuel : Nat)
    (hCL : ∀ (cid : Nat) (parent : HoudiniStaticData) (st : WalkState)
      (nameArg : Option String),
      WalkInv st.seen (loadClass w sigFn fuel cid parent st nameArg).1
        (loadClass w sigFn fuel cid parent st nameArg).2.seen) :
    ∀ (ms : List (String × Nat)) (c : PyObj) (name : String)
      (parent class_data : HoudiniStaticData) (st : WalkState),
      WalkInv st.seen (classMembers w sigFn fuel c name parent class_data ms st).1
        (classMembers w sigFn fuel c name parent class_data ms st).2.seen := by
  intro ms
  induction ms with
  | nil =>
      intro c name parent class_data st
      simp only [classMembers]
      exact walkInv_refl _
  | cons hd rest ih =>
      obtain ⟨mn, mid⟩ := hd
      intro c name parent class_data st
      simp only [classMembers]
      refine walkInv_comp ?_ (ih c name parent class_data _)
      repeat' split
      all_goals
        first
          | exact walkInv_refl _
          | exact hCL _ _ _ _
          | exact walkInv_no_visits (by rfl) (fun x h => h)
          | exact walkInv_no_visits (visitOids_sigs _ _) (fun x h => h)

/-- The module member loop preserves the walk invariant, provided the class
walk at the same fuel does. -/
theorem moduleMembers_walkInv (w : World) (sigFn : SigFn) (fuel : Nat)
    (hCL : ∀ (cid : Nat) (parent : HoudiniStaticData) (st : WalkState)
      (nameArg : Option String),
      WalkInv st.seen (loadClass w sigFn fuel cid parent st nameArg).1
        (loadClass w sigFn fuel cid parent st nameArg).2.seen) :
    ∀ (ms : List (String × Nat)) (m : PyObj)
      (module_data : HoudiniStaticData) (st : WalkState),
      WalkInv st.seen (moduleMembers w sigFn fuel m module_data ms st).1
        (moduleMembers w sigFn fuel m module_data ms st).2.seen := by
  intro ms
  induction ms with
  | nil =>
      intro m module_data st
      simp only [moduleMembers]
      exact walkInv_refl _
  | cons hd rest ih =>
      obtain ⟨mn, mid⟩ := hd
      intro m module_data st
      simp only [moduleMembers]
      refine walkInv_comp ?_ (ih m module_data _)
      repeat' split
      all_goals
        first
          | exact walkInv_refl _
          | exact hCL _ _ _ _
          | exact walkInv_no_visits (by rfl) (fun x h => h)
          | exact walkInv_no_visits (visitOids_sigs _ _) (fun x h => h)

/-- The class walk preserves the walk invariant: the seen set only grows,
each class is visit-emitted at most once, and exactly the objects unseen
before and seen after are emitted. -/
theorem loadClass_walkInv (w : World) (sigFn : SigFn) :
    ∀ (fuel : Nat) (cid : Nat) (parent : HoudiniStaticData) (st : WalkState)
      (nameArg : Option String),
      WalkInv st.seen (loadClass w sigFn fuel cid parent st nameArg).1
        (loadClass w sigFn fuel cid parent st nameArg).2.seen := by
  intro fuel
  induction fuel with
  | zero =>
      intro cid parent st nameArg
      simp only [loadClass]
      exact walkInv_refl _
  | succ f ih =>
      intro cid parent st nameArg
      rw [loadClass.eq_def]
      dsimp only
      repeat' split
      all_goals
        first
          | exact walkInv_refl _
          | exact walkInv_no_visits (by rfl) (fun x h => List.mem_cons_of_mem _ h)
          | (refine walkInv_visit_cons _ _ (by simp_all) ?_
             exact classMembers_walkInv w sigFn f ih _ _ _ _ _
               ⟨cid :: st.seen, st.queue, st.queued⟩)

/-- The module walk and the queue drain preserve the walk invariant. -/
theorem loadModule_drain_walkInv (w : World) (sigFn : SigFn) :
    ∀ (fuel : Nat),
      (∀ (mid : Nat) (parent : Option HoudiniStaticData) (st : WalkState)
        (done : List String) (ignore : List (String × String)) (top : Bool),
        WalkInv st.seen (loadModule w sigFn fuel mid parent st done ignore top).1
          (loadModule w sigFn fuel mid parent st done ignore top).2.seen) ∧
      (∀ (st : WalkState) (done : List String)
        (ignore : List (String × String)),
        WalkInv st.seen (drainQueue w sigFn fuel st done ignore).1
          (drainQueue w sigFn fuel st done ignore).2.seen) := by
  intro fuel
  induction fuel with
  | zero =>
      constructor
      · intro mid parent st done ignore top
        simp only [loadModule]
        exact walkInv_refl _
      · intro st done ignore
        simp only [drainQueue]
        exact walkInv_refl _
  | succ f ih =>
      constructor
      · intro mid parent st done ignore top
        simp only [loadModule]
        split
        · exact walkInv_refl _
        split
        · exact walkInv_no_visits (by rfl) (fun x h => List.mem_cons_of_mem _ h)
        split
        · exact walkInv_no_visits (by rfl) (fun x h => List.mem_cons_of_mem _ h)
        · split
          · refine walkInv_mod_cons ?_
            refine walkInv_visit_cons _ _ (by simp_all) ?_
            exact walkInv_comp
              (moduleMembers_walkInv w sigFn f (loadClass_walkInv w sigFn f) _ _ _
                ⟨mid :: st.seen, st.queue, st.queued⟩)
              (ih.2 _ done ignore)
          · refine walkInv_mod_cons ?_
            refine walkInv_visit_cons _ _ (by simp_all) ?_
            exact moduleMembers_walkInv w sigFn f (loadClass_walkInv w sigFn f) _ _ _
              ⟨mid :: st.seen, st.queue, st.queued⟩
      · intro st done ignore
        simp only [drainQueue]
        split
        · exact walkInv_refl _
        · rename_i pd mid rest heq
          exact walkInv_comp
            (ih.1 mid (some pd) ⟨st.seen, rest, st.queued⟩ done ignore false)
            (ih.2 (loadModule w sigFn f mid (some pd) ⟨st.seen, rest, st.queued⟩
                done ignore false).2 done ignore)

/-- C2 (amended): within one top-level `_load_module` walk — one root of
`analyze_modules`, including the drain of its pending-module queue — no
module or class object is emitted as a `ReflectedEntity` more than once,
whatever seen/queue state the walk starts from.  (Across roots only the
`queued` set persists; `analyze_modules` creates a fresh `seen` set per root,
so an object reachable from several roots may recur once per root.) -/
theorem c2_amended_no_duplicates_within_root (w : World) (sigFn : SigFn)
    (fuel : Nat) (mid : Nat) (parent : Option HoudiniStaticData)
    (st : WalkState) (done : List String) (ignore : List (String × String))
    (top : Bool) :
    (visitOids (loadModule w sigFn fuel mid parent st done ignore top).1).Nodup :=
  ((loadModule_drain_walkInv w sigFn fuel).1 mid parent st done ignore top).2.1

end Zabob
